import Mathlib

set_option maxRecDepth 100000

/-!
Shallow embedding of the segregated-list allocator in `src/mm.c`.

The heap is word-addressed: `word_t` values sit at `Int` addresses, one per
4-byte word, exactly as `mm.c` manipulates `word_t *` pointers.  Pointers are
plain `Int` word addresses with `0` playing the role of `NULL`; the globals of
`mm.c` (`heap_start`, `heap_epilogue`, `last`, `segregated_list`) live in a
state record together with a byte-level break modelling the backing `mem_sbrk`
provider.  Bit operations on the two low flag bits of a header word are
expressed arithmetically via `emod`, which coincides with the two's-complement
masks used by the C code.
-/

namespace Malloc

/-- `WSIZE = sizeof(word_t)`: size of a word in bytes. -/
def WSIZE : Int := 4

/-- `N_BUCKETS`: number of buckets of the segregated list. -/
def N_BUCKETS : Nat := 10

/-- Modelled from the spec: `ALIGNMENT` is defined in `mm.h`, which is not
among the sources; the spec fixes the alignment quantum at 16 bytes
("The alignment quantum is 16 bytes (4 words)"). -/
def ALIGNMENT : Int := 16

/-- `FREE = 0`. -/
def FREE : Int := 0

/-- `USED = 1`. -/
def USED : Int := 1

/-- `PREVFREE = 2`. -/
def PREVFREE : Int := 2

/-- `v & ~(USED | PREVFREE)`: clearing the two low bits of a two's-complement
integer yields `v - v % 4` (with `%` the nonnegative remainder). -/
def maskSize (v : Int) : Int := v - v % 4

/-- `v & USED`: the lowest bit. -/
def maskUsed (v : Int) : Int := v % 2

/-- `v & PREVFREE`: the second-lowest bit (0 or 2). -/
def maskPrevfree (v : Int) : Int := v % 4 - v % 2

/-- `v | PREVFREE`. -/
def orPrevfree (v : Int) : Int := v - maskPrevfree v + PREVFREE

/-- `v & ~PREVFREE`. -/
def andNotPrevfree (v : Int) : Int := v - maskPrevfree v

/-- `PACK(size, alloc) = (size) | (alloc)`: at every call site of `mm.c` the
size is a multiple of 4 and the flags are below 4, where bitwise or coincides
with addition. -/
def PACK (size alloc : Int) : Int := size + alloc

/-- Two's-complement truncation to `word_t` (`int32_t`), used where the C code
casts a pointer difference to `word_t`. -/
def toWord (x : Int) : Int := (x + 2 ^ 31) % 2 ^ 32 - 2 ^ 31

/-- `round_up(size) = (size + ALIGNMENT - 1) & -ALIGNMENT` in `size_t`
arithmetic: the sum wraps modulo `2^64` and the mask clears the four low
bits. -/
def round_up (size : Int) : Int :=
  (size + ALIGNMENT - 1) % 2 ^ 64 - (size + ALIGNMENT - 1) % 2 ^ 64 % ALIGNMENT

/-- The allocator state: word-addressed heap memory plus the globals of
`mm.c`.  `brk` and `limit` model the byte-level break of the backing provider
(modelled from the spec: `memlib` is not among the sources; the spec gives the
trait `sbrk(delta) -> base | fail`). -/
structure MM where
  mem : Int → Int
  heap_start : Int
  heap_epilogue : Int
  last : Int
  segregated_list : Nat → Int
  brk : Int
  limit : Int

/-- `PUT(p, val)`: store a word. -/
def MM.put (s : MM) (p v : Int) : MM :=
  { s with mem := fun a => if a = p then v else s.mem a }

/-- `bt_size(bt) = *bt & ~(USED | PREVFREE)`. -/
def bt_size (s : MM) (bt : Int) : Int := maskSize (s.mem bt)

/-- `bt_used(bt) = *bt & USED`. -/
def bt_used (s : MM) (bt : Int) : Int := maskUsed (s.mem bt)

/-- `bt_get_prevfree(bt) = *bt & PREVFREE`. -/
def bt_get_prevfree (s : MM) (bt : Int) : Int := maskPrevfree (s.mem bt)

/-- `bt_clr_prevfree(bt)`: `if (bt) *bt &= ~PREVFREE;`. -/
def bt_clr_prevfree (s : MM) (bt : Int) : MM :=
  if bt = 0 then s else s.put bt (andNotPrevfree (s.mem bt))

/-- `bt_set_prevfree(bt)`: `*bt |= PREVFREE;`. -/
def bt_set_prevfree (s : MM) (bt : Int) : MM :=
  s.put bt (orPrevfree (s.mem bt))

/-- `bt_footer(bt) = bt + bt_size(bt) - 1`. -/
def bt_footer (s : MM) (bt : Int) : Int := bt + bt_size s bt - 1

/-- `bt_next(bt)`: the following adjacent block, or `NULL` when it would be the
epilogue. -/
def bt_next (s : MM) (bt : Int) : Int :=
  if bt_footer s bt + 1 = s.heap_epilogue then 0 else bt_footer s bt + 1

/-- `bt_prev(bt)`: read the previous block's footer at `bt - 1` when `PREVFREE`
is set, else `NULL`. -/
def bt_prev (s : MM) (bt : Int) : Int :=
  if bt_get_prevfree s bt ≠ 0 then bt - maskSize (s.mem (bt - 1)) else 0

/-- `bt_make(bt, words, flags)`: write the header; if a next adjacent block
exists, set or clear its `PREVFREE` according to the new `USED` bit (returning
early, without a footer, in the used case); otherwise also write the footer. -/
def bt_make (s : MM) (bt words flags : Int) : MM :=
  let s1 := s.put bt (PACK words flags)
  if bt_next s1 bt ≠ 0 then
    if bt_used s1 bt ≠ 0 then
      bt_clr_prevfree s1 (bt_next s1 bt)
    else
      let s2 := bt_set_prevfree s1 (bt_next s1 bt)
      s2.put (bt_footer s2 bt) (PACK words flags)
  else
    s1.put (bt_footer s1 bt) (PACK words flags)

/-- The `do`-`while` loop of `find_bucket`, entered with `remaining =
N_BUCKETS - 1` iterations allowed by the `index < N_BUCKETS - 1` guard. -/
def find_bucket_go (size : Int) : Int → Nat → Nat → Nat
  | boundary, index, remaining + 1 =>
    if size ≤ boundary then index
    else find_bucket_go size (boundary * 2) (index + 1) remaining
  | _, _, 0 => N_BUCKETS - 1

/-- `find_bucket(words)`: `size = words * WSIZE; boundary = 16; index = 0;`
then the scan loop. -/
def find_bucket (words : Int) : Nat :=
  find_bucket_go (words * WSIZE) 16 0 (N_BUCKETS - 1)

/-- `set_free_list_prev(bt, free_prev)`: `PUT(bt + 2, (word_t)(free_prev - heap_start))`. -/
def set_free_list_prev (s : MM) (bt free_prev : Int) : MM :=
  s.put (bt + 2) (toWord (free_prev - s.heap_start))

/-- `set_free_list_next(bt, free_next)`: `PUT(bt + 1, (word_t)(free_next - heap_start))`. -/
def set_free_list_next (s : MM) (bt free_next : Int) : MM :=
  s.put (bt + 1) (toWord (free_next - s.heap_start))

/-- `get_free_list_prev(bt)`: `NULL` when the stored offset is negative. -/
def get_free_list_prev (s : MM) (bt : Int) : Int :=
  if s.mem (bt + 2) < 0 then 0 else s.heap_start + s.mem (bt + 2)

/-- `get_free_list_next(bt)`: `NULL` when the stored offset is negative. -/
def get_free_list_next (s : MM) (bt : Int) : Int :=
  if s.mem (bt + 1) < 0 then 0 else s.heap_start + s.mem (bt + 1)

/-- `free_list_append(bt)`: LIFO insertion into the bucket of `bt_size(bt)`. -/
def free_list_append (s : MM) (bt : Int) : MM :=
  let index := find_bucket (bt_size s bt)
  let s1 := set_free_list_prev s bt (s.heap_start - 1)
  let s2 := set_free_list_next s1 bt (s1.segregated_list index)
  let s3 := { s2 with segregated_list := fun i => if i = index then bt else s2.segregated_list i }
  if get_free_list_next s3 bt ≠ 0 then set_free_list_prev s3 (get_free_list_next s3 bt) bt
  else s3

/-- `free_list_delete(bt)`: the four positional cases of the C code. -/
def free_list_delete (s : MM) (bt : Int) : MM :=
  let index := find_bucket (bt_size s bt)
  if s.segregated_list index = bt ∧ get_free_list_next s bt = 0 then
    { s with segregated_list := fun i => if i = index then s.heap_start - 1 else s.segregated_list i }
  else if s.segregated_list index = bt then
    let s1 := { s with segregated_list := fun i => if i = index then get_free_list_next s bt else s.segregated_list i }
    set_free_list_prev s1 (s1.segregated_list index) (s1.heap_start - 1)
  else if get_free_list_next s bt ≠ 0 then
    let s1 := set_free_list_next s (get_free_list_prev s bt) (get_free_list_next s bt)
    set_free_list_prev s1 (get_free_list_next s1 bt) (get_free_list_prev s1 bt)
  else
    set_free_list_next s (get_free_list_prev s bt) (s.heap_start - 1)

/-- `coalesce(bt)`: merge with free neighbors, rewrite as one free block,
append it, and update `last` when it moved.  Returns the new state and the
returned block pointer. -/
def coalesce (s : MM) (bt : Int) : MM × Int :=
  let prev := bt_prev s bt
  let next := bt_next s bt
  let prev_used : Int := if prev ≠ 0 then bt_used s prev else 1
  let next_used : Int := if next ≠ 0 then bt_used s next else 1
  let words := bt_size s bt
  let is_change : Int := if bt = s.last ∨ (next = s.last ∧ next_used = 0) then 1 else 0
  let words1 := if next_used = 0 then words + bt_size s next else words
  let s1 := if next_used = 0 then free_list_delete s next else s
  let words2 := if prev_used = 0 then words1 + bt_size s1 prev else words1
  let s2 := if prev_used = 0 then free_list_delete s1 prev else s1
  let bt2 := if prev_used = 0 then prev else bt
  let s3 := bt_make s2 bt2 words2 FREE
  let s4 := free_list_append s3 bt2
  let s5 := if is_change ≠ 0 then { s4 with last := bt2 } else s4
  (s5, bt2)

/-- Modelled from the spec: the backing provider (`memlib` is not among the
sources) offers `sbrk(delta_bytes) -> old break | fail`, failing with
OUT_OF_MEMORY when the heap cannot grow; here it fails exactly when the new
break would exceed `limit` (or the delta is negative). -/
def mem_sbrk (s : MM) (bytes : Int) : Option MM :=
  if 0 ≤ bytes ∧ s.brk + bytes ≤ s.limit then some { s with brk := s.brk + bytes } else none

/-- `extend_heap(size)`: grow the break, lay a new free block over the old
epilogue, write a fresh epilogue, update `last`, and coalesce. -/
def extend_heap (s : MM) (size : Int) : Option (MM × Int) :=
  match mem_sbrk s size with
  | none => none
  | some s0 =>
    let bt := s0.heap_epilogue
    let flags : Int := (if s0.last ≠ 0 ∧ bt_used s0 s0.last = 0 then PREVFREE else 0) + FREE
    let s1 := bt_make s0 bt (size / WSIZE) flags
    let s2 := { s1 with last := bt }
    let ep := bt_footer s2 bt + 1
    let s3 := { s2.put ep (PACK 0 USED) with heap_epilogue := ep }
    some (coalesce s3 bt)

/-- `place(bt, words_needed)`: remove the block from its bucket; split when
`free_block_words - words_needed >= ALIGNMENT`, else use the whole block. -/
def place (s : MM) (bt : Int) (words_needed : Int) : MM :=
  let free_block_words := bt_size s bt
  let s1 := free_list_delete s bt
  if free_block_words - words_needed ≥ ALIGNMENT then
    let s2 := bt_make s1 bt words_needed (USED + bt_get_prevfree s1 bt)
    let remaining_block := bt_next s2 bt
    let s3 := bt_make s2 remaining_block (free_block_words - words_needed) FREE
    let s4 := free_list_append s3 remaining_block
    if s4.last = bt then { s4 with last := remaining_block } else s4
  else
    bt_make s1 bt free_block_words USED

/-- The bucket-skipping loop of `find_fit`:
`while ((segregated_list[index] - heap_start == -1) && (index < N_BUCKETS)) index++;`.
The left operand of `&&` is evaluated before the bound test, so every
condition evaluation reads `segregated_list[index]`; the second component
records each index so read. -/
def skip_empty (seg : Nat → Int) (hs : Int) : Nat → Nat → Nat × List Nat
  | index, 0 => (index, [])
  | index, fuel + 1 =>
    if seg index - hs = -1 ∧ index < N_BUCKETS then
      let r := skip_empty seg hs (index + 1) fuel
      (r.1, index :: r.2)
    else
      (index, [index])

/-- The first-fit walk along one bucket list.  The fuel only bounds the walk;
in the states exercised here every list is finite and short. -/
def fit_walk (s : MM) (words : Int) : Int → Nat → Int
  | _, 0 => 0
  | bt, fuel + 1 =>
    if bt = 0 then 0
    else if words ≤ bt_size s bt then bt
    else fit_walk s words (get_free_list_next s bt) fuel

/-- The outer `do`-`while` of `find_fit`. -/
def find_fit_go (s : MM) (words : Int) : Nat → Nat → Int
  | _, 0 => 0
  | index, fuel + 1 =>
    let index1 := (skip_empty s.segregated_list s.heap_start index (N_BUCKETS + 2)).1
    let bt := fit_walk s words (s.segregated_list index1) 1000
    if bt ≠ 0 then bt
    else if index1 + 1 < N_BUCKETS then find_fit_go s words (index1 + 1) fuel
    else 0

/-- `find_fit(words)`: first-fit search starting at `find_bucket(words)`. -/
def find_fit (s : MM) (words : Int) : Int :=
  find_fit_go s words (find_bucket words) (N_BUCKETS + 1)

/-- `malloc(size)`. -/
def malloc (s : MM) (size : Int) : MM × Int :=
  if size = 0 then (s, 0)
  else
    let sz := round_up (WSIZE + size)
    let words := sz / WSIZE
    let bt := find_fit s words
    if bt ≠ 0 then (place s bt words, bt + 1)
    else
      let needed := if s.last ≠ 0 ∧ bt_used s s.last = 0 then sz - bt_size s s.last * WSIZE else sz
      match extend_heap s needed with
      | none => (s, 0)
      | some r => (place r.1 r.2 words, r.2 + 1)

/-- `free(ptr)`. -/
def free (s : MM) (ptr : Int) : MM :=
  if ptr = 0 then s
  else
    let bt := ptr - 1
    let flags := FREE + bt_get_prevfree s bt
    let s1 := bt_make s bt (bt_size s bt) flags
    if bt_get_prevfree s1 bt ≠ 0 ∨ (bt_next s1 bt ≠ 0 ∧ bt_used s1 (bt_next s1 bt) ≠ 0) then
      (coalesce s1 bt).1
    else
      free_list_append s1 bt

/-- `memcpy(dst, src, 4*n)` at word granularity; every `memcpy` in `mm.c`
copies a multiple of 4 bytes (block sizes are multiples of 16 bytes). -/
def memcpy_words (s : MM) (dst src : Int) : Nat → MM
  | 0 => s
  | n + 1 => (memcpy_words s dst src n).put (dst + n) (s.mem (src + n))

/-- `realloc(old_ptr, size)`. -/
def realloc (s : MM) (old_ptr size : Int) : MM × Int :=
  if size = 0 then (free s old_ptr, 0)
  else if old_ptr = 0 then malloc s size
  else
    let bt := old_ptr - 1
    let r := malloc s size
    if r.2 = 0 then (r.1, 0)
    else
      let free_size := bt_size r.1 (r.2 - 1) * WSIZE
      let old_size := bt_size r.1 bt * WSIZE
      let copy_bytes := if free_size > old_size then old_size - WSIZE else free_size - WSIZE
      let s2 := memcpy_words r.1 r.2 old_ptr (copy_bytes / WSIZE).toNat
      (free s2 old_ptr, r.2)

/-- `memset(p, 0, bytes)` at word granularity: zero the words covering the
`bytes` bytes. -/
def memset_words (s : MM) (p : Int) : Nat → MM
  | 0 => s
  | n + 1 => (memset_words s p n).put (p + n) 0

/-- `calloc(nmemb, size)`: `bytes = nmemb * size` in wrapping `size_t`
arithmetic, then `malloc` and, on success, zeroing. -/
def calloc (s : MM) (nmemb size : Int) : MM × Int :=
  let bytes := (nmemb * size) % 2 ^ 64
  let r := malloc s bytes
  if r.2 ≠ 0 then (memset_words r.1 r.2 ((bytes + 3) / 4).toNat, r.2) else r

/-- The alignment computation of `mm_init`: `remainder = break % 16` and
`size = (remainder > 12) ? 16 - remainder - 12 : 12 - remainder`, evaluated in
`size_t` arithmetic. -/
def init_padding (remainder : Int) : Int :=
  if remainder > 12 then (16 - remainder - 12) % 2 ^ 64
  else (12 - remainder) % 2 ^ 64

/-- A concrete post-`mm_init` allocator state: `heap_start = heap_epilogue` at
word address 1003 (byte address 4012, which is ≡ 12 (mod 16)), the epilogue
word `PACK(0, USED)`, `last = NULL`, every bucket holding the empty sentinel
`heap_start - 1`.  Entries of the bucket table past index 9 model the
out-of-bounds bytes directly after the table, zero-initialized in the
reference environment (see the `find_fit` bounds analysis). -/
def init_state : MM :=
  { mem := fun a => if a = 1003 then PACK 0 USED else 0
    heap_start := 1003
    heap_epilogue := 1003
    last := 0
    segregated_list := fun i => if i < N_BUCKETS then 1002 else 0
    brk := 4016
    limit := 100000 }

/-- `bucket_of` as the spec words it: "Convert to bytes; start with boundary 16
at index 0; while size > boundary and index < N−1, double the boundary and
increment the index.  Return the index."  `remaining` encodes the
`index < N−1` bound. -/
def bucket_of_spec_go (size : Int) : Int → Nat → Nat → Nat
  | boundary, index, remaining + 1 =>
    if boundary < size then bucket_of_spec_go size (boundary * 2) (index + 1) remaining
    else index
  | _, index, 0 => index

/-- The spec's `bucket_of(words)`. -/
def bucket_of_spec (words : Int) : Nat :=
  bucket_of_spec_go (words * 4) 16 0 (N_BUCKETS - 1)

end Malloc

namespace Malloc

/-! ### Concrete execution traces

States reached from `init_state` through the public operations only. -/

/-- After `p1 = malloc(1)`: one used 4-word block at 1003, payload `p1 = 1004`. -/
def trace1 : MM := (malloc init_state 1).1

/-- After `p2 = malloc(1)`: used blocks at 1003 and 1007, payload `p2 = 1008`. -/
def trace2 : MM := (malloc trace1 1).1

/-- After `p3 = malloc(1)`: used blocks at 1003, 1007, 1011, payload `p3 = 1012`. -/
def trace3 : MM := (malloc trace2 1).1

/-- After `free(p2)`: the middle block at 1007 is free. -/
def trace4 : MM := free trace3 1008

/-- After `free(p1)`: the first block at 1003 has just been freed while its
next adjacent block 1007 is already free. -/
def trace5 : MM := free trace4 1004

/-- After `p = malloc(17)`: one used 8-word (32-byte) block at 1003. -/
def trace3a : MM := (malloc init_state 17).1

/-- After `free(p)`: one free 8-word block at 1003, in bucket 1. -/
def trace3b : MM := free trace3a 1004

/-- After `free(p3)`: the last block at 1011 is free (appended to bucket 0)
while the blocks at 1003 and 1007 stay used. -/
def trace6 : MM := free trace3 1012

/-- After `free(p1)`: the block at 1003 is freed too (no coalesce: its next
neighbour 1007 is used) and becomes the new head of bucket 0, in front of the
free last block 1011 — so `last` is free but not the head of its bucket. -/
def s9b : MM := free trace6 1004

/-- `trace1` with the three payload words of the allocated block filled with
recognizable user data. -/
def sW : MM := ((trace1.put 1004 42).put 1005 43).put 1006 44

end Malloc

namespace Malloc

/-! ### The states traversed by `malloc` on the miss-with-free-last path -/

/-- The rounded request size in bytes. -/
def mSZ (n : Int) : Int := round_up (4 + n)

/-- The size of the last block, in words. -/
def mL (s : MM) : Int := bt_size s s.last

/-- The byte count handed to `extend_heap`. -/
def mD (s : MM) (n : Int) : Int := mSZ n - mL s * 4

/-- The word count of the newly extended region. -/
def mW (s : MM) (n : Int) : Int := mD s n / 4

/-- After `mem_sbrk`. -/
def mstate0 (s : MM) (n : Int) : MM := { s with brk := s.brk + mD s n }

/-- After the header write of `bt_make` in `extend_heap`. -/
def mstate1 (s : MM) (n : Int) : MM :=
  (mstate0 s n).put s.heap_epilogue (mW s n + 2)

/-- After `bt_set_prevfree` on the word past the new block. -/
def mstate2 (s : MM) (n : Int) : MM :=
  (mstate1 s n).put (s.heap_epilogue + mW s n)
    (orPrevfree ((mstate1 s n).mem (s.heap_epilogue + mW s n)))

/-- After the footer write of `bt_make`. -/
def mstate3 (s : MM) (n : Int) : MM :=
  (mstate2 s n).put (s.heap_epilogue + mW s n - 1) (mW s n + 2)

/-- After `last = bt`. -/
def mstate4 (s : MM) (n : Int) : MM := { mstate3 s n with last := s.heap_epilogue }

/-- After the new epilogue write. -/
def mstate5 (s : MM) (n : Int) : MM :=
  { (mstate4 s n).put (s.heap_epilogue + mW s n) 1 with
    heap_epilogue := s.heap_epilogue + mW s n }


/-- A well-formed bucket-head value, as the free-list invariants imply:
either the empty-list marker `heap_start - 1`, or a free-list node whose
offset from `heap_start` is a small non-negative word and which lies at
least one minimal block (4 words) away from the block address `a`. -/
def head_ok (s : MM) (a v : Int) : Prop :=
  v = s.heap_start - 1 ∨
    (s.heap_start ≤ v ∧ v - s.heap_start < 2 ^ 31 ∧ (v + 4 ≤ a ∨ a + 4 ≤ v))

instance (s : MM) (a v : Int) : Decidable (head_ok s a v) :=
  inferInstanceAs (Decidable (v = s.heap_start - 1 ∨
    (s.heap_start ≤ v ∧ v - s.heap_start < 2 ^ 31 ∧ (v + 4 ≤ a ∨ a + 4 ≤ v))))

end Malloc

namespace Malloc

/-! ### Claims -/

/-- Claim C1.  In `trace4` the block at 1003 has `PREVFREE` clear and its next
adjacent block 1007 exists and is free, so the claim requires `free(1004)` to
coalesce the two; but the code's branch condition is
`bt_get_prevfree(bt) || (bt_next(bt) && bt_used(bt_next(bt)))` — it tests
`bt_used`, not its negation — so the block is appended to bucket 0 unmerged:
afterwards it still has size 4 (a coalesce would have produced size 8), both
adjacent blocks are free, and both sit in the bucket list separately. -/
theorem free_skips_coalesce_on_free_next :
    bt_get_prevfree trace4 1003 = 0 ∧ bt_next trace4 1003 = 1007 ∧
    bt_used trace4 1007 = 0 ∧ trace5 = free trace4 1004 ∧
    bt_size trace5 1003 = 4 ∧ bt_used trace5 1003 = 0 ∧
    trace5.segregated_list 0 = 1003 ∧ get_free_list_next trace5 1003 = 1007 ∧
    bt_used trace5 1007 = 0 :=
  ⟨by decide, by decide, by decide, rfl, by decide, by decide, by decide,
   by decide, by decide⟩

/-- Claim C2.  A state reachable from `init_state` through the public
operations only (`malloc(1)` three times, then `free` of the second and first
payloads) contains two adjacent blocks that are both free, violating the
coalescing invariant. -/
theorem adjacent_free_blocks_reachable :
    bt_used trace5 1003 = 0 ∧ bt_next trace5 1003 = 1007 ∧
    bt_used trace5 1007 = 0 := by
  decide

/-- Claim C3.  `trace3b` holds a free block of 8 words (32 bytes) at 1003 in
bucket 1; `malloc(1)` needs 4 words, leaving a remainder of 4 words = 16
bytes, so the claim requires a split.  The code compares the word count 4
against `ALIGNMENT` (16, a byte quantity), so it does not split: the full
8-word block is rewritten `USED` and no remainder block is inserted into any
bucket. -/
theorem place_no_split_at_16_byte_remainder :
    bt_size trace3b 1003 = 8 ∧ bt_used trace3b 1003 = 0 ∧
    trace3b.segregated_list 1 = 1003 ∧
    (malloc trace3b 1).2 = 1004 ∧
    bt_size (malloc trace3b 1).1 1003 = 8 ∧
    bt_used (malloc trace3b 1).1 1003 = 1 ∧
    (malloc trace3b 1).1.segregated_list 0 = 1002 ∧
    (malloc trace3b 1).1.segregated_list 1 = 1002 := by
  decide

/-- Claim C4.  At break residue 13 the initializer's padding
`(size_t)(16 - 13 - 12)` underflows to `2^64 - 9`: it is not in `[0, 16)`, and
even modulo 16 the next word would land at residue 4, not 12 (the request of
roughly `2^64` bytes makes the backing sbrk fail).  For residues 0..12 the
formula is correct; only 13, 14, 15 misbehave. -/
theorem init_padding_underflows_above_12 :
    init_padding 13 = 2 ^ 64 - 9 ∧ ¬init_padding 13 < 16 ∧
    (13 + init_padding 13) % 16 ≠ 12 := by
  decide

/-- Claim C5.  `calloc(2^63 + 1, 2)`: the mathematical product `2^64 + 2` does
not fit in `size_t`, so the claim requires failure; but the code multiplies in
wrapping arithmetic (`bytes = 2`) and succeeds, handing out a 16-byte block —
far smaller than the mathematical product. -/
theorem calloc_overflow_unchecked :
    (2 ^ 64 - 1 : Int) < (2 ^ 63 + 1) * 2 ∧
    ((2 ^ 63 + 1) * 2 : Int) % 2 ^ 64 = 2 ∧
    (calloc init_state (2 ^ 63 + 1) 2).2 = 1004 ∧
    bt_size (calloc init_state (2 ^ 63 + 1) 2).1 1003 * WSIZE = 16 := by
  decide

/-- Claim C6.  Degenerate arguments: `malloc(0)` returns `NULL` leaving the
state unchanged, `free(NULL)` is a no-op, `realloc(p, 0)` frees `p` and
returns `NULL`, and `realloc(NULL, n)` is exactly `malloc(n)`. -/
theorem degenerate_arguments (s : MM) (p n : Int) (hn : n ≠ 0) :
    malloc s 0 = (s, 0) ∧ free s 0 = s ∧
    realloc s p 0 = (free s p, 0) ∧ realloc s 0 n = malloc s n := by
  refine ⟨?_, ?_, ?_, ?_⟩
  · simp [malloc]
  · simp [free]
  · simp [realloc]
  · simp [realloc, hn]

/-- Witness for C6 at `s = init_state`, `p = 1004`, `n = 1`. -/
theorem degenerate_arguments_w :
    (1 : Int) ≠ 0 ∧
    (malloc init_state 0 = (init_state, 0) ∧ free init_state 0 = init_state ∧
     realloc init_state 1004 0 = (free init_state 1004, 0) ∧
     realloc init_state 0 1 = malloc init_state 1) :=
  ⟨by decide, degenerate_arguments init_state 1004 1 (by decide)⟩

/-- Claim C7.  In the post-init state every bucket is empty, so the
bucket-skipping loop of `find_fit` — whose condition reads
`segregated_list[index]` before testing `index < N_BUCKETS` — walks to index
`N_BUCKETS = 10` and evaluates `segregated_list[10]`, one past the end of the
10-entry bucket table; the subsequent `bt = segregated_list[index]` reads
index 10 as well.  The claim that every read stays in `[0, N_BUCKETS)` fails
on the very first `malloc` after `mm_init`. -/
theorem find_fit_reads_bucket_index_ten :
    (skip_empty init_state.segregated_list init_state.heap_start
        (find_bucket 4) (N_BUCKETS + 2)).1 = 10 ∧
    10 ∈ (skip_empty init_state.segregated_list init_state.heap_start
        (find_bucket 4) (N_BUCKETS + 2)).2 ∧
    N_BUCKETS = 10 ∧ find_fit init_state 4 = 0 := by
  decide

end Malloc

namespace Malloc

/-- The code's bucket loop and the spec's bucket loop agree whenever the
remaining-iteration count complements the index to `N_BUCKETS - 1`. -/
lemma find_bucket_go_eq_spec (r : Nat) : ∀ (size boundary : Int) (index : Nat),
    index + r = 9 →
    find_bucket_go size boundary index r = bucket_of_spec_go size boundary index r := by
  induction r with
  | zero =>
    intro size boundary index h
    simp only [find_bucket_go, bucket_of_spec_go, N_BUCKETS]
    omega
  | succ n ih =>
    intro size boundary index h
    simp only [find_bucket_go, bucket_of_spec_go]
    by_cases hc : size ≤ boundary
    · rw [if_pos hc, if_neg (by omega : ¬boundary < size)]
    · rw [if_neg hc, if_pos (by omega : boundary < size), ih _ _ _ (by omega)]

/-- `find_bucket` fully unfolded, with the boundary doublings and index
increments exactly as the loop produces them. -/
lemma find_bucket_eq_raw (s : Int) :
    find_bucket s =
      if s * 4 ≤ 16 then 0 else if s * 4 ≤ 16 * 2 then 0 + 1
      else if s * 4 ≤ 16 * 2 * 2 then 0 + 1 + 1
      else if s * 4 ≤ 16 * 2 * 2 * 2 then 0 + 1 + 1 + 1
      else if s * 4 ≤ 16 * 2 * 2 * 2 * 2 then 0 + 1 + 1 + 1 + 1
      else if s * 4 ≤ 16 * 2 * 2 * 2 * 2 * 2 then 0 + 1 + 1 + 1 + 1 + 1
      else if s * 4 ≤ 16 * 2 * 2 * 2 * 2 * 2 * 2 then 0 + 1 + 1 + 1 + 1 + 1 + 1
      else if s * 4 ≤ 16 * 2 * 2 * 2 * 2 * 2 * 2 * 2 then 0 + 1 + 1 + 1 + 1 + 1 + 1 + 1
      else if s * 4 ≤ 16 * 2 * 2 * 2 * 2 * 2 * 2 * 2 * 2 then 0 + 1 + 1 + 1 + 1 + 1 + 1 + 1 + 1
      else 10 - 1 := by
  simp only [find_bucket, find_bucket_go, WSIZE, N_BUCKETS]

/-- `find_bucket` as a chain of byte-size comparisons against the powers of
two from 16 to 4096. -/
lemma find_bucket_eq (s : Int) :
    find_bucket s =
      if s * 4 ≤ 16 then 0 else if s * 4 ≤ 32 then 1 else if s * 4 ≤ 64 then 2
      else if s * 4 ≤ 128 then 3 else if s * 4 ≤ 256 then 4 else if s * 4 ≤ 512 then 5
      else if s * 4 ≤ 1024 then 6 else if s * 4 ≤ 2048 then 7 else if s * 4 ≤ 4096 then 8
      else 9 := by
  rw [find_bucket_eq_raw]
  norm_num

set_option maxHeartbeats 8000000 in
/-- Claim C8: for block sizes of `s` words (`s ≥ 4`), `find_bucket s` equals
the index the spec's `bucket_of` loop computes; equivalently byte size 16 maps
to bucket 0, byte sizes in `(2^(i+3), 2^(i+4)]` map to bucket `i` for
`1 ≤ i ≤ 8`, and byte sizes above 4096 map to bucket 9. -/
theorem find_bucket_characterization (s : Int) (hs : 4 ≤ s) :
    find_bucket s = bucket_of_spec s ∧
    (s = 4 → find_bucket s = 0) ∧
    (∀ i : Nat, 1 ≤ i → i ≤ 8 → 2 ^ (i + 3) < s * 4 → s * 4 ≤ 2 ^ (i + 4) →
      find_bucket s = i) ∧
    (4096 < s * 4 → find_bucket s = 9) := by
  refine ⟨?_, ?_, ?_, ?_⟩
  · simp only [find_bucket, bucket_of_spec, WSIZE, N_BUCKETS]
    exact find_bucket_go_eq_spec 9 (s * 4) 16 0 rfl
  · intro h; subst h
    rw [find_bucket_eq]
    norm_num
  · intro i h1 h2 h3 h4
    rw [find_bucket_eq]
    interval_cases i <;> norm_num at h3 h4 <;> split_ifs <;> omega
  · intro h
    rw [find_bucket_eq]
    split_ifs <;> omega

/-- Witness for C8 at `s = 20` words (80 bytes, bucket 3). -/
theorem find_bucket_characterization_w :
    (4 : Int) ≤ 20 ∧ find_bucket 20 = bucket_of_spec 20 ∧ find_bucket 20 = 3 :=
  ⟨by decide, (find_bucket_characterization 20 (by decide)).1,
   (find_bucket_characterization 20 (by decide)).2.2.1 3 (by decide) (by decide)
     (by decide) (by decide)⟩

end Malloc

namespace Malloc

/-- Reading inside the copied range of `memcpy_words` yields the source. -/
lemma memcpy_words_read (s : MM) (dst src : Int) (n a : Nat) (h : a < n) :
    (memcpy_words s dst src n).mem (dst + a) = s.mem (src + a) := by
  induction n with
  | zero => omega
  | succ k ih =>
    simp only [memcpy_words, MM.put]
    by_cases hak : a = k
    · subst hak
      simp
    · have hne : ¬(dst + (a : Int) = dst + (k : Int)) := by
        intro hx
        exact hak (by omega)
      simp only [hne, if_false]
      exact ih (by omega)

/-- `realloc`'s conditional copy amount is `min` of the two payload sizes: the
byte count `min(block bytes) - WSIZE` over `WSIZE` is `min(words) - 1`. -/
lemma copy_count_min (a b : Int) :
    ((if b * 4 > a * 4 then a * 4 - 4 else b * 4 - 4) / 4) = min a b - 1 := by
  have h1 : a * 4 - 4 = (a - 1) * 4 := by ring
  have h2 : b * 4 - 4 = (b - 1) * 4 := by ring
  split_ifs with h
  · rw [h1, Int.mul_ediv_cancel _ (by norm_num)]
    omega
  · rw [h2, Int.mul_ediv_cancel _ (by norm_num)]
    omega

/-- Claim C10: `realloc(p, n)` with `p ≠ NULL`, `n ≠ 0`.  When the internal
`malloc` fails it returns `NULL` with `malloc`'s (unchanged) state and never
touches the old block.  When it succeeds with payload `q`, `realloc` copies
exactly `min(old payload, new payload)` words (payload = block minus the
header word), then frees the old block and returns `q`; consequently —
provided `malloc` did not write into the old payload and `free` of the old
block does not write into the new payload, which hold in well-formed heaps
because `malloc` only writes free-list and boundary-tag words of other
blocks — the first `min` words of the new payload equal the old payload as it
was before the call. -/
theorem realloc_copies_min_payload (s : MM) (p n : Int) (hp : p ≠ 0) (hn : n ≠ 0) :
    ((malloc s n).2 = 0 → realloc s p n = ((malloc s n).1, 0)) ∧
    ((malloc s n).2 ≠ 0 →
      let s1 := (malloc s n).1
      let q := (malloc s n).2
      let w := (min (bt_size s1 (p - 1)) (bt_size s1 (q - 1)) - 1).toNat
      realloc s p n = (free (memcpy_words s1 q p w) p, q) ∧
      ((∀ a : Nat, a < w → s1.mem (p + a) = s.mem (p + a)) →
       (∀ a : Nat, a < w →
          (free (memcpy_words s1 q p w) p).mem (q + a) = (memcpy_words s1 q p w).mem (q + a)) →
       ∀ a : Nat, a < w → (realloc s p n).1.mem (q + a) = s.mem (p + a))) := by
  have hmain : (malloc s n).2 ≠ 0 →
      realloc s p n =
        (free (memcpy_words (malloc s n).1 (malloc s n).2 p
            (min (bt_size (malloc s n).1 (p - 1)) (bt_size (malloc s n).1 ((malloc s n).2 - 1)) - 1).toNat) p,
         (malloc s n).2) := by
    intro hq
    unfold realloc
    rw [if_neg hn, if_neg hp]
    simp only [WSIZE]
    rw [if_neg hq]
    rw [copy_count_min (bt_size (malloc s n).1 (p - 1)) (bt_size (malloc s n).1 ((malloc s n).2 - 1))]
  constructor
  · intro h0
    unfold realloc
    rw [if_neg hn, if_neg hp]
    simp only []
    rw [if_pos h0]
  · intro hq
    refine ⟨hmain hq, ?_⟩
    intro h1 h2 a ha
    rw [hmain hq]
    calc (free (memcpy_words (malloc s n).1 (malloc s n).2 p _) p,
          (malloc s n).2).1.mem ((malloc s n).2 + a)
        = (free (memcpy_words (malloc s n).1 (malloc s n).2 p
            (min (bt_size (malloc s n).1 (p - 1)) (bt_size (malloc s n).1 ((malloc s n).2 - 1)) - 1).toNat) p).mem
            ((malloc s n).2 + a) := rfl
      _ = (memcpy_words (malloc s n).1 (malloc s n).2 p
            (min (bt_size (malloc s n).1 (p - 1)) (bt_size (malloc s n).1 ((malloc s n).2 - 1)) - 1).toNat).mem
            ((malloc s n).2 + a) := h2 a ha
      _ = (malloc s n).1.mem (p + a) := memcpy_words_read _ _ _ _ a ha
      _ = s.mem (p + a) := h1 a ha

/-- Witness for C10 at `sW` (data 42, 43, 44 in the old payload), `p = 1004`,
`n = 20`: the new payload at 1008 carries the old three words. -/
theorem realloc_copies_min_payload_w :
    (1004 : Int) ≠ 0 ∧ (20 : Int) ≠ 0 ∧ (malloc sW 20).2 ≠ 0 ∧
    (∀ a : Nat, a < 3 → (realloc sW 1004 20).1.mem ((malloc sW 20).2 + a) = sW.mem (1004 + a)) := by
  refine ⟨by decide, by decide, by decide, ?_⟩
  have T := (realloc_copies_min_payload sW 1004 20 (by decide) (by decide)).2 (by decide)
  have hb := T.2 (by decide) (by decide)
  intro a ha
  refine hb a ?_
  have h3 : (min (bt_size (malloc sW 20).1 (1004 - 1))
      (bt_size (malloc sW 20).1 ((malloc sW 20).2 - 1)) - 1).toNat = 3 := by decide
  omega

end Malloc

namespace Malloc

lemma put_mem_eq (s : MM) (p v : Int) : (s.put p v).mem p = v := by
  simp [MM.put]

lemma put_mem_ne (s : MM) (p v q : Int) (h : q ≠ p) : (s.put p v).mem q = s.mem q := by
  simp [MM.put, h]

lemma maskSize_add_two (w : Int) (h : w % 4 = 0) : maskSize (w + 2) = w := by
  unfold maskSize; omega

lemma maskSize_add_one (w : Int) (h : w % 4 = 0) : maskSize (w + 1) = w := by
  unfold maskSize; omega

lemma maskSize_self_eq (w : Int) (h : w % 4 = 0) : maskSize w = w := by
  unfold maskSize; omega

lemma maskPrevfree_add_two (w : Int) (h : w % 4 = 0) : maskPrevfree (w + 2) = 2 := by
  unfold maskPrevfree; omega

lemma maskUsed_add_two (w : Int) (h : w % 4 = 0) : maskUsed (w + 2) = 0 := by
  unfold maskUsed; omega

lemma maskUsed_add_one (w : Int) (h : w % 4 = 0) : maskUsed (w + 1) = 1 := by
  unfold maskUsed; omega

lemma maskSize_mod (v : Int) : maskSize v % 4 = 0 := by
  unfold maskSize; omega

lemma toWord_neg_one : toWord (-1) = -1 := by decide

lemma toWord_eq_of_bounds (x : Int) (h1 : -2 ^ 31 ≤ x) (h2 : x < 2 ^ 31) : toWord x = x := by
  unfold toWord
  omega

lemma get_free_list_next_update (X : MM) (bt w : Int) (f : Nat → Int) :
    get_free_list_next ({ X.put (bt + 1) w with segregated_list := f } : MM) bt =
      if w < 0 then 0 else X.heap_start + w := by
  unfold get_free_list_next
  rw [show ({ X.put (bt + 1) w with segregated_list := f } : MM).mem (bt + 1) = w from
    put_mem_eq _ _ _]
  rfl

lemma bt_make_free_at_epilogue (t : MM) (bt K : Int)
    (hK : K % 4 = 0) (hK2 : 2 ≤ K) (hend : bt + K = t.heap_epilogue) :
    bt_make t bt K 0 = (t.put bt K).put (bt + K - 1) K := by
  unfold bt_make
  dsimp only
  rw [show PACK K 0 = K from by unfold PACK; ring]
  have h1 : bt_next (t.put bt K) bt = 0 := by
    unfold bt_next bt_footer bt_size
    rw [put_mem_eq, maskSize_self_eq _ hK]
    rw [show (t.put bt K).heap_epilogue = t.heap_epilogue from rfl]
    rw [if_pos (show bt + K - 1 + 1 = t.heap_epilogue by omega)]
  rw [h1]
  rw [if_neg (show ¬(0 : Int) ≠ 0 by omega)]
  unfold bt_footer bt_size
  rw [put_mem_eq, maskSize_self_eq _ hK]

lemma bt_make_used_at_epilogue (t : MM) (bt K : Int)
    (hK : K % 4 = 0) (hK2 : 2 ≤ K) (hend : bt + K = t.heap_epilogue) :
    bt_make t bt K USED = (t.put bt (K + 1)).put (bt + K - 1) (K + 1) := by
  unfold bt_make
  dsimp only
  rw [show PACK K USED = K + 1 from rfl]
  have h1 : bt_next (t.put bt (K + 1)) bt = 0 := by
    unfold bt_next bt_footer bt_size
    rw [put_mem_eq, maskSize_add_one _ hK]
    rw [show (t.put bt (K + 1)).heap_epilogue = t.heap_epilogue from rfl]
    rw [if_pos (show bt + K - 1 + 1 = t.heap_epilogue by omega)]
  rw [h1]
  rw [if_neg (show ¬(0 : Int) ≠ 0 by omega)]
  unfold bt_footer bt_size
  rw [put_mem_eq, maskSize_add_one _ hK]

lemma free_list_delete_frame (t : MM) (bt : Int) :
    (free_list_delete t bt).heap_start = t.heap_start ∧
    (free_list_delete t bt).heap_epilogue = t.heap_epilogue ∧
    (free_list_delete t bt).brk = t.brk ∧
    (free_list_delete t bt).last = t.last ∧
    ∀ j : Nat,
      ((free_list_delete t bt).segregated_list j = t.segregated_list j ∧
        (j = find_bucket (bt_size t bt) → t.segregated_list j ≠ bt)) ∨
      (free_list_delete t bt).segregated_list j = t.heap_start - 1 ∨
      (get_free_list_next t bt ≠ 0 ∧
        (free_list_delete t bt).segregated_list j = get_free_list_next t bt) := by
  unfold free_list_delete set_free_list_prev set_free_list_next MM.put
  dsimp only
  split_ifs with h1 h2 h3 h4
  · refine ⟨rfl, rfl, rfl, rfl, fun j => ?_⟩
    dsimp only
    by_cases hj : j = find_bucket (bt_size t bt)
    · rw [if_pos hj]
      exact Or.inr (Or.inl rfl)
    · rw [if_neg hj]
      exact Or.inl ⟨rfl, fun hj2 => absurd hj2 hj⟩
  · refine ⟨rfl, rfl, rfl, rfl, fun j => ?_⟩
    dsimp only
    by_cases hj : j = find_bucket (bt_size t bt)
    · rw [if_pos hj]
      exact Or.inr (Or.inr ⟨fun h0 => h1 ⟨h2, h0⟩, rfl⟩)
    · rw [if_neg hj]
      exact Or.inl ⟨rfl, fun hj2 => absurd hj2 hj⟩
  · exact absurd rfl h3
  · exact ⟨rfl, rfl, rfl, rfl, fun j =>
      Or.inl ⟨rfl, fun hj2 => by rw [hj2]; exact h2⟩⟩
  · exact ⟨rfl, rfl, rfl, rfl, fun j =>
      Or.inl ⟨rfl, fun hj2 => by rw [hj2]; exact h2⟩⟩

lemma free_list_delete_head_sole (t : MM) (bt : Int)
    (hhead : t.segregated_list (find_bucket (bt_size t bt)) = bt)
    (hnext : t.mem (bt + 1) < 0) :
    free_list_delete t bt =
      { t with segregated_list := fun i =>
          if i = (find_bucket (bt_size t bt)) then t.heap_start - 1
          else t.segregated_list i } := by
  unfold free_list_delete
  dsimp only
  rw [if_pos (⟨hhead, show get_free_list_next t bt = 0 from by
    unfold get_free_list_next
    rw [if_pos hnext]⟩ :
      t.segregated_list (find_bucket (bt_size t bt)) = bt ∧ get_free_list_next t bt = 0)]

lemma free_list_delete_head_next (t : MM) (bt h2 : Int)
    (hhead : t.segregated_list (find_bucket (bt_size t bt)) = bt)
    (hmem : t.mem (bt + 1) = h2 - t.heap_start)
    (hlo : 0 ≤ h2 - t.heap_start) (hpos : 0 < t.heap_start) :
    free_list_delete t bt =
      ({ t with segregated_list := fun i =>
          if i = (find_bucket (bt_size t bt)) then h2
          else t.segregated_list i } : MM).put (h2 + 2) (-1) := by
  have hq : get_free_list_next t bt = h2 := by
    unfold get_free_list_next
    rw [hmem, if_neg (by omega)]
    ring
  unfold free_list_delete
  dsimp only
  rw [if_neg (show ¬(t.segregated_list (find_bucket (bt_size t bt)) = bt ∧
      get_free_list_next t bt = 0) from by
    intro hand
    rw [hq] at hand
    omega)]
  rw [if_pos hhead]
  rw [hq]
  unfold set_free_list_prev
  rw [if_pos (show find_bucket (bt_size t bt) = find_bucket (bt_size t bt) from rfl)]
  rw [show ({ t with segregated_list := fun i =>
      if i = (find_bucket (bt_size t bt)) then h2
      else t.segregated_list i } : MM).heap_start = t.heap_start from rfl]
  rw [show t.heap_start - 1 - t.heap_start = -1 from by ring]
  rw [toWord_neg_one]

lemma free_list_append_empty (t : MM) (bt : Int)
    (hmarker : t.segregated_list (find_bucket (bt_size t bt)) = t.heap_start - 1) :
    free_list_append t bt =
      { (t.put (bt + 2) (-1)).put (bt + 1) (-1) with
        segregated_list := fun i =>
          if i = (find_bucket (bt_size t bt)) then bt
          else (t.put (bt + 2) (-1)).segregated_list i } := by
  unfold free_list_append set_free_list_prev set_free_list_next
  dsimp only
  rw [show toWord (t.heap_start - 1 - t.heap_start) = -1 from by
    rw [show t.heap_start - 1 - t.heap_start = -1 from by ring]
    exact toWord_neg_one]
  rw [show (t.put (bt + 2) (-1)).segregated_list (find_bucket (bt_size t bt)) =
    t.heap_start - 1 from hmarker]
  rw [show (t.put (bt + 2) (-1)).heap_start = t.heap_start from rfl]
  rw [show toWord (t.heap_start - 1 - t.heap_start) = -1 from by
    rw [show t.heap_start - 1 - t.heap_start = -1 from by ring]
    exact toWord_neg_one]
  rw [get_free_list_next_update]
  rw [if_pos (show (-1 : Int) < 0 by omega)]
  rw [if_neg (show ¬(0 : Int) ≠ 0 by omega)]
  rfl

lemma free_list_append_node (t : MM) (bt h2 : Int)
    (hh : t.segregated_list (find_bucket (bt_size t bt)) = h2)
    (hlo : t.heap_start ≤ h2) (hhi : h2 - t.heap_start < 2 ^ 31)
    (hpos : 0 < t.heap_start) :
    free_list_append t bt =
      ({ (t.put (bt + 2) (-1)).put (bt + 1) (h2 - t.heap_start) with
        segregated_list := fun i =>
          if i = (find_bucket (bt_size t bt)) then bt
          else (t.put (bt + 2) (-1)).segregated_list i } : MM).put (h2 + 2)
        (toWord (bt - t.heap_start)) := by
  unfold free_list_append set_free_list_prev set_free_list_next
  dsimp only
  rw [show toWord (t.heap_start - 1 - t.heap_start) = -1 from by
    rw [show t.heap_start - 1 - t.heap_start = -1 from by ring]
    exact toWord_neg_one]
  rw [show (t.put (bt + 2) (-1)).segregated_list (find_bucket (bt_size t bt)) = h2 from hh]
  rw [show (t.put (bt + 2) (-1)).heap_start = t.heap_start from rfl]
  rw [toWord_eq_of_bounds (h2 - t.heap_start) (by omega) (by omega)]
  rw [get_free_list_next_update]
  rw [if_neg (show ¬h2 - t.heap_start < 0 by omega)]
  rw [show (t.put (bt + 2) (-1)).heap_start = t.heap_start from rfl]
  rw [show t.heap_start + (h2 - t.heap_start) = h2 from by ring]
  rw [if_pos (show h2 ≠ 0 by omega)]
  rfl
set_option maxHeartbeats 1000000 in
lemma extend_place_tail (t : MM) (a K : Int)
    (hK : K % 4 = 0) (hK8 : 8 ≤ K)
    (hpos : 0 < t.heap_start) (ha : 0 < a)
    (hend : a + K = t.heap_epilogue)
    (hcase : t.segregated_list (find_bucket K) = t.heap_start - 1 ∨
      (t.heap_start ≤ t.segregated_list (find_bucket K) ∧
        t.segregated_list (find_bucket K) - t.heap_start < 2 ^ 31 ∧
        (t.segregated_list (find_bucket K) + 4 ≤ a ∨
          a + 4 ≤ t.segregated_list (find_bucket K)))) :
    ∃ w, place ({ free_list_append (bt_make t a K 0) a with last := a } : MM) a K = w ∧
      w.mem a = K + 1 ∧ w.brk = t.brk := by
  have e_bm : bt_make t a K 0 = (t.put a K).put (a + K - 1) K :=
    bt_make_free_at_epilogue t a K hK (by omega) hend
  obtain ⟨u, hu⟩ : ∃ u, (t.put a K).put (a + K - 1) K = u := ⟨_, rfl⟩
  rw [hu] at e_bm
  have hu_mem_a : u.mem a = K := by
    rw [← hu, put_mem_ne _ _ _ _ (by omega), put_mem_eq]
  have hu_seg : u.segregated_list = t.segregated_list := by rw [← hu]; rfl
  have hu_hs : u.heap_start = t.heap_start := by rw [← hu]; rfl
  have hu_ep : u.heap_epilogue = t.heap_epilogue := by rw [← hu]; rfl
  have hu_brk : u.brk = t.brk := by rw [← hu]; rfl
  have hu_size : bt_size u a = K := by
    unfold bt_size
    rw [hu_mem_a]
    exact maskSize_self_eq _ hK
  rcases hcase with hm | ⟨hlo, hhi, hfar⟩
  · -- the target bucket is empty: append, then delete in the head-sole case
    have e_app : free_list_append u a =
        { (u.put (a + 2) (-1)).put (a + 1) (-1) with
          segregated_list := fun i =>
            if i = (find_bucket (bt_size u a)) then a
            else (u.put (a + 2) (-1)).segregated_list i } :=
      free_list_append_empty u a (by rw [hu_size, hu_seg, hm, hu_hs])
    obtain ⟨A, hA⟩ : ∃ A, ({ (u.put (a + 2) (-1)).put (a + 1) (-1) with
        segregated_list := fun i =>
          if i = (find_bucket (bt_size u a)) then a
          else (u.put (a + 2) (-1)).segregated_list i } : MM) = A := ⟨_, rfl⟩
    rw [hA] at e_app
    have hA_mem_a : A.mem a = K := by
      rw [← hA]
      show ((u.put (a + 2) (-1)).put (a + 1) (-1)).mem a = K
      rw [put_mem_ne _ _ _ _ (by omega), put_mem_ne _ _ _ _ (by omega)]
      exact hu_mem_a
    have hA_mem_a1 : A.mem (a + 1) = -1 := by
      rw [← hA]
      show ((u.put (a + 2) (-1)).put (a + 1) (-1)).mem (a + 1) = -1
      exact put_mem_eq _ _ _
    have hA_seg : A.segregated_list (find_bucket K) = a := by
      rw [← hA]
      show (if find_bucket K = (find_bucket (bt_size u a)) then a
        else (u.put (a + 2) (-1)).segregated_list (find_bucket K)) = a
      rw [hu_size]
      rw [if_pos rfl]
    have hA_ep : A.heap_epilogue = t.heap_epilogue := by rw [← hA]; exact hu_ep
    have hA_brk : A.brk = t.brk := by rw [← hA]; exact hu_brk
    obtain ⟨v, hv⟩ : ∃ v, ({ A with last := a } : MM) = v := ⟨_, rfl⟩
    have hv_mem_a : v.mem a = K := by rw [← hv]; exact hA_mem_a
    have hv_mem_a1 : v.mem (a + 1) = -1 := by rw [← hv]; exact hA_mem_a1
    have hv_seg : v.segregated_list (find_bucket K) = a := by rw [← hv]; exact hA_seg
    have hv_hs : v.heap_start = t.heap_start := by
      rw [← hv]
      show A.heap_start = t.heap_start
      rw [← hA]
      show u.heap_start = t.heap_start
      exact hu_hs
    have hv_ep : v.heap_epilogue = t.heap_epilogue := by rw [← hv]; exact hA_ep
    have hv_brk : v.brk = t.brk := by rw [← hv]; exact hA_brk
    have hv_size : bt_size v a = K := by
      unfold bt_size
      rw [hv_mem_a]
      exact maskSize_self_eq _ hK
    have e_del : free_list_delete v a =
        { v with segregated_list := fun i =>
            if i = (find_bucket (bt_size v a)) then v.heap_start - 1
            else (v.segregated_list i) } :=
      free_list_delete_head_sole v a
        (by rw [hv_size]; exact hv_seg)
        (by rw [hv_mem_a1]; omega)
    obtain ⟨D, hD⟩ : ∃ D, ({ v with segregated_list := fun i =>
        if i = (find_bucket (bt_size v a)) then v.heap_start - 1
        else (v.segregated_list i) } : MM) = D := ⟨_, rfl⟩
    rw [hD] at e_del
    have hD_mem_a : D.mem a = K := by rw [← hD]; exact hv_mem_a
    have hD_ep : D.heap_epilogue = t.heap_epilogue := by rw [← hD]; exact hv_ep
    have hD_brk : D.brk = t.brk := by rw [← hD]; exact hv_brk
    have e_bm3 : bt_make D a K USED = (D.put a (K + 1)).put (a + K - 1) (K + 1) :=
      bt_make_used_at_epilogue D a K hK (by omega) (by rw [hD_ep]; omega)
    refine ⟨(D.put a (K + 1)).put (a + K - 1) (K + 1), ?_, ?_, ?_⟩
    · rw [e_bm, e_app, hv]
      unfold place
      dsimp only
      rw [hv_size]
      rw [e_del]
      rw [if_neg (show ¬K - K ≥ ALIGNMENT from by simp only [ALIGNMENT]; omega)]
      exact e_bm3
    · rw [put_mem_ne _ _ _ _ (by omega), put_mem_eq]
    · show D.brk = t.brk
      exact hD_brk
  · -- the target bucket holds a node: append links it, delete in the head-next case
    have e_app : free_list_append u a =
        ({ (u.put (a + 2) (-1)).put (a + 1)
            (t.segregated_list (find_bucket K) - u.heap_start) with
          segregated_list := fun i =>
            if i = (find_bucket (bt_size u a)) then a
            else (u.put (a + 2) (-1)).segregated_list i } : MM).put
          (t.segregated_list (find_bucket K) + 2) (toWord (a - u.heap_start)) :=
      free_list_append_node u a (t.segregated_list (find_bucket K))
        (by rw [hu_size, hu_seg])
        (by rw [hu_hs]; exact hlo)
        (by rw [hu_hs]; exact hhi)
        (by rw [hu_hs]; exact hpos)
    obtain ⟨A, hA⟩ : ∃ A, ({ (u.put (a + 2) (-1)).put (a + 1)
        (t.segregated_list (find_bucket K) - u.heap_start) with
        segregated_list := fun i =>
          if i = (find_bucket (bt_size u a)) then a
          else (u.put (a + 2) (-1)).segregated_list i } : MM).put
        (t.segregated_list (find_bucket K) + 2) (toWord (a - u.heap_start)) = A := ⟨_, rfl⟩
    rw [hA] at e_app
    have hA_mem_a : A.mem a = K := by
      rw [← hA]
      rw [put_mem_ne _ _ _ _ (by omega)]
      show ((u.put (a + 2) (-1)).put (a + 1)
        (t.segregated_list (find_bucket K) - u.heap_start)).mem a = K
      rw [put_mem_ne _ _ _ _ (by omega), put_mem_ne _ _ _ _ (by omega)]
      exact hu_mem_a
    have hA_mem_a1 : A.mem (a + 1) = t.segregated_list (find_bucket K) - u.heap_start := by
      rw [← hA]
      rw [put_mem_ne _ _ _ _ (by omega)]
      show ((u.put (a + 2) (-1)).put (a + 1)
        (t.segregated_list (find_bucket K) - u.heap_start)).mem (a + 1) =
          t.segregated_list (find_bucket K) - u.heap_start
      exact put_mem_eq _ _ _
    have hA_seg : A.segregated_list (find_bucket K) = a := by
      rw [← hA]
      show (if find_bucket K = (find_bucket (bt_size u a)) then a
        else (u.put (a + 2) (-1)).segregated_list (find_bucket K)) = a
      rw [hu_size]
      rw [if_pos rfl]
    have hA_ep : A.heap_epilogue = t.heap_epilogue := by rw [← hA]; exact hu_ep
    have hA_brk : A.brk = t.brk := by rw [← hA]; exact hu_brk
    obtain ⟨v, hv⟩ : ∃ v, ({ A with last := a } : MM) = v := ⟨_, rfl⟩
    have hv_mem_a : v.mem a = K := by rw [← hv]; exact hA_mem_a
    have hv_mem_a1 : v.mem (a + 1) = t.segregated_list (find_bucket K) - u.heap_start := by
      rw [← hv]; exact hA_mem_a1
    have hv_seg : v.segregated_list (find_bucket K) = a := by rw [← hv]; exact hA_seg
    have hv_hs : v.heap_start = t.heap_start := by
      rw [← hv]
      show A.heap_start = t.heap_start
      rw [← hA]
      show u.heap_start = t.heap_start
      exact hu_hs
    have hv_ep : v.heap_epilogue = t.heap_epilogue := by rw [← hv]; exact hA_ep
    have hv_brk : v.brk = t.brk := by rw [← hv]; exact hA_brk
    have hv_size : bt_size v a = K := by
      unfold bt_size
      rw [hv_mem_a]
      exact maskSize_self_eq _ hK
    have e_del : free_list_delete v a =
        ({ v with segregated_list := fun i =>
            if i = (find_bucket (bt_size v a)) then (t.segregated_list (find_bucket K))
            else (v.segregated_list i) } : MM).put
          (t.segregated_list (find_bucket K) + 2) (-1) :=
      free_list_delete_head_next v a (t.segregated_list (find_bucket K))
        (by rw [hv_size]; exact hv_seg)
        (by rw [hv_mem_a1, hv_hs, hu_hs])
        (by rw [hv_hs]; omega)
        (by rw [hv_hs]; exact hpos)
    obtain ⟨D, hD⟩ : ∃ D, ({ v with segregated_list := fun i =>
        if i = (find_bucket (bt_size v a)) then (t.segregated_list (find_bucket K))
        else (v.segregated_list i) } : MM).put
        (t.segregated_list (find_bucket K) + 2) (-1) = D := ⟨_, rfl⟩
    rw [hD] at e_del
    have hD_mem_a : D.mem a = K := by
      rw [← hD]
      rw [put_mem_ne _ _ _ _ (by omega)]
      exact hv_mem_a
    have hD_ep : D.heap_epilogue = t.heap_epilogue := by rw [← hD]; exact hv_ep
    have hD_brk : D.brk = t.brk := by rw [← hD]; exact hv_brk
    have e_bm3 : bt_make D a K USED = (D.put a (K + 1)).put (a + K - 1) (K + 1) :=
      bt_make_used_at_epilogue D a K hK (by omega) (by rw [hD_ep]; omega)
    refine ⟨(D.put a (K + 1)).put (a + K - 1) (K + 1), ?_, ?_, ?_⟩
    · rw [e_bm, e_app, hv]
      unfold place
      dsimp only
      rw [hv_size]
      rw [e_del]
      rw [if_neg (show ¬K - K ≥ ALIGNMENT from by simp only [ALIGNMENT]; omega)]
      exact e_bm3
    · rw [put_mem_ne _ _ _ _ (by omega), put_mem_eq]
    · show D.brk = t.brk
      exact hD_brk

set_option maxHeartbeats 2000000 in
/-- Claim C9: when `find_fit` misses and the last block is free, `malloc`
extends the heap by `round_up(4 + size) - 4 * bt_size(last)` bytes, the new
region coalesces with the last block into a block of `round_up(4 + size) / 4`
words — large enough for the request — which is placed used and whose payload
`last + 1` is returned; `NULL` is returned exactly when the backing `sbrk`
fails.  The free-list hypotheses (`hq`, `hB1`, `hB2`) only require the
well-formedness the spec invariants give: link words are the none-marker or
point at nodes of other blocks, and the affected bucket heads are the
empty-list marker or nodes of blocks other than `last`. -/
theorem malloc_miss_success (s : MM) (n : Int)
    (hn : 0 < n) (hn2 : n ≤ 2 ^ 32)
    (hhs : 0 < s.heap_start)
    (hlast : 0 < s.last)
    (hfree : bt_used s s.last = 0)
    (hep : s.heap_epilogue = s.last + bt_size s s.last)
    (hL4 : 4 ≤ bt_size s s.last)
    (hfoot : maskSize (s.mem (s.heap_epilogue - 1)) = bt_size s s.last)
    (hq : s.mem (s.last + 1) < 0 ∨
      (0 ≤ s.mem (s.last + 1) ∧ head_ok s s.last (s.heap_start + s.mem (s.last + 1))))
    (hB1 : s.segregated_list (find_bucket (bt_size s s.last)) = s.last ∨
      head_ok s s.last (s.segregated_list (find_bucket (bt_size s s.last))))
    (hB2 : find_bucket (round_up (4 + n) / 4) = find_bucket (bt_size s s.last) ∨
      head_ok s s.last (s.segregated_list (find_bucket (round_up (4 + n) / 4))))
    (hmiss : find_fit s (round_up (4 + n) / 4) = 0)
    (hszL : bt_size s s.last * 4 < round_up (4 + n)) :
    (s.brk + (round_up (4 + n) - bt_size s s.last * 4) ≤ s.limit →
      ∃ sF, malloc s n = (sF, s.last + 1) ∧
        sF.brk = s.brk + (round_up (4 + n) - bt_size s s.last * 4) ∧
        bt_size sF s.last = round_up (4 + n) / 4 ∧
        bt_used sF s.last = 1 ∧
        n + 4 ≤ bt_size sF s.last * 4) ∧
    (s.limit < s.brk + (round_up (4 + n) - bt_size s s.last * 4) →
      malloc s n = (s, 0)) := by
  have hLr : mL s = bt_size s s.last := rfl
  have hSZr : mSZ n = round_up (4 + n) := rfl
  have hDr : mD s n = mSZ n - mL s * 4 := rfl
  have hWr : mW s n = mD s n / 4 := rfl
  have hLmod : mL s % 4 = 0 := maskSize_mod _
  have hsz16 : mSZ n % 16 = 0 := by
    rw [hSZr]; simp only [round_up, ALIGNMENT]; omega
  have hszlb : 16 ≤ mSZ n := by
    have hy : (4 + n + (16 : Int) - 1) % 2 ^ 64 = n + 19 := by
      rw [Int.emod_eq_of_lt (by omega) (by omega)]; ring
    rw [hSZr]; simp only [round_up, ALIGNMENT]
    omega
  have hWmod : mW s n % 4 = 0 := by omega
  have hWlb : 4 ≤ mW s n := by omega
  have hWL : mW s n + mL s = mSZ n / 4 := by omega
  have hSZ4mod : mSZ n / 4 % 4 = 0 := by omega
  have hszn : 4 + n ≤ mSZ n := by
    have hy : (4 + n + (16 : Int) - 1) % 2 ^ 64 = n + 19 := by
      rw [Int.emod_eq_of_lt (by omega) (by omega)]; ring
    rw [hSZr]; simp only [round_up, ALIGNMENT]
    omega
  rw [← hLr] at hB1 hB2
  rw [← hSZr] at hB2
  constructor
  · intro hok
    -- step: sbrk
    have e_sbrk : mem_sbrk s (mD s n) = some (mstate0 s n) := by
      unfold mem_sbrk
      rw [if_pos ⟨by omega, show s.brk + mD s n ≤ s.limit by omega⟩]
      rfl
    -- reads on mstate1/mstate2
    have hS1memE : (mstate1 s n).mem s.heap_epilogue = mW s n + 2 := put_mem_eq _ _ _
    have hnext1 : bt_next (mstate1 s n) s.heap_epilogue = s.heap_epilogue + mW s n := by
      unfold bt_next bt_footer bt_size
      rw [hS1memE, maskSize_add_two _ hWmod]
      rw [show (mstate1 s n).heap_epilogue = s.heap_epilogue from rfl]
      rw [if_neg (by omega)]
      omega
    have hused1 : bt_used (mstate1 s n) s.heap_epilogue = 0 := by
      unfold bt_used
      rw [hS1memE]
      exact maskUsed_add_two _ hWmod
    have hS2memE : (mstate2 s n).mem s.heap_epilogue = mW s n + 2 := by
      rw [show mstate2 s n = (mstate1 s n).put (s.heap_epilogue + mW s n)
          (orPrevfree ((mstate1 s n).mem (s.heap_epilogue + mW s n))) from rfl,
        put_mem_ne _ _ _ _ (by omega)]
      exact hS1memE
    have hfoot2 : bt_footer (mstate2 s n) s.heap_epilogue = s.heap_epilogue + mW s n - 1 := by
      unfold bt_footer bt_size
      rw [hS2memE, maskSize_add_two _ hWmod]
    -- step: bt_make inside extend_heap
    have e_btmake1 : bt_make (mstate0 s n) s.heap_epilogue (mW s n) 2 = mstate3 s n := by
      unfold bt_make
      dsimp only
      rw [show PACK (mW s n) 2 = mW s n + 2 from rfl]
      rw [show (mstate0 s n).put s.heap_epilogue (mW s n + 2) = mstate1 s n from rfl]
      rw [hnext1]
      rw [if_pos (show s.heap_epilogue + mW s n ≠ 0 by omega)]
      rw [if_neg (show ¬bt_used (mstate1 s n) s.heap_epilogue ≠ 0 by rw [hused1]; omega)]
      unfold bt_set_prevfree
      rw [show (mstate1 s n).put (s.heap_epilogue + mW s n)
          (orPrevfree ((mstate1 s n).mem (s.heap_epilogue + mW s n))) = mstate2 s n from rfl]
      rw [hfoot2]
      rfl
    have hfoot4 : bt_footer (mstate4 s n) s.heap_epilogue = s.heap_epilogue + mW s n - 1 := by
      unfold bt_footer bt_size
      rw [show (mstate4 s n).mem s.heap_epilogue = (mstate3 s n).mem s.heap_epilogue from rfl]
      rw [show mstate3 s n = (mstate2 s n).put (s.heap_epilogue + mW s n - 1) (mW s n + 2) from rfl,
        put_mem_ne _ _ _ _ (by omega)]
      rw [hS2memE, maskSize_add_two _ hWmod]
    -- step: extend_heap
    have e_extend : extend_heap s (mD s n) = some (coalesce (mstate5 s n) s.heap_epilogue) := by
      unfold extend_heap
      rw [e_sbrk]
      dsimp only
      rw [show (mstate0 s n).heap_epilogue = s.heap_epilogue from rfl,
        show (mstate0 s n).last = s.last from rfl]
      rw [if_pos (⟨show s.last ≠ 0 by omega,
        show bt_used (mstate0 s n) s.last = 0 from hfree⟩ :
        s.last ≠ 0 ∧ bt_used (mstate0 s n) s.last = 0)]
      simp only [WSIZE]
      rw [show mD s n / 4 = mW s n from rfl]
      rw [show (PREVFREE + FREE : Int) = 2 from rfl]
      rw [e_btmake1]
      rw [show ({ mstate3 s n with last := s.heap_epilogue } : MM) = mstate4 s n from rfl]
      rw [show bt_footer (mstate4 s n) s.heap_epilogue + 1 = s.heap_epilogue + mW s n from by
        rw [hfoot4]; ring]
      rw [show PACK 0 USED = 1 from rfl]
      rfl
    -- reads on mstate5
    have hS5read : ∀ z, z ≠ s.heap_epilogue → z ≠ s.heap_epilogue + mW s n →
        z ≠ s.heap_epilogue + mW s n - 1 → (mstate5 s n).mem z = s.mem z := by
      intro z h1 h2 h3
      show ((mstate4 s n).put (s.heap_epilogue + mW s n) 1).mem z = s.mem z
      rw [put_mem_ne _ _ _ _ h2]
      show (mstate3 s n).mem z = s.mem z
      rw [show mstate3 s n = (mstate2 s n).put (s.heap_epilogue + mW s n - 1) (mW s n + 2) from rfl,
        put_mem_ne _ _ _ _ h3,
        show mstate2 s n = (mstate1 s n).put (s.heap_epilogue + mW s n)
          (orPrevfree ((mstate1 s n).mem (s.heap_epilogue + mW s n))) from rfl,
        put_mem_ne _ _ _ _ h2,
        show mstate1 s n = (mstate0 s n).put s.heap_epilogue (mW s n + 2) from rfl,
        put_mem_ne _ _ _ _ h1]
      rfl
    have hS5memE : (mstate5 s n).mem s.heap_epilogue = mW s n + 2 := by
      show ((mstate4 s n).put (s.heap_epilogue + mW s n) 1).mem s.heap_epilogue = mW s n + 2
      rw [put_mem_ne _ _ _ _ (by omega)]
      show (mstate3 s n).mem s.heap_epilogue = mW s n + 2
      rw [show mstate3 s n = (mstate2 s n).put (s.heap_epilogue + mW s n - 1) (mW s n + 2) from rfl,
        put_mem_ne _ _ _ _ (by omega)]
      exact hS2memE
    have hprevfree5 : bt_get_prevfree (mstate5 s n) s.heap_epilogue = 2 := by
      unfold bt_get_prevfree
      rw [hS5memE]
      exact maskPrevfree_add_two _ hWmod
    have hbtprev5 : bt_prev (mstate5 s n) s.heap_epilogue = s.last := by
      unfold bt_prev
      rw [if_pos (show bt_get_prevfree (mstate5 s n) s.heap_epilogue ≠ 0 by
        rw [hprevfree5]; omega)]
      rw [hS5read (s.heap_epilogue - 1) (by omega) (by omega) (by omega), hfoot]
      omega
    have hbtnext5 : bt_next (mstate5 s n) s.heap_epilogue = 0 := by
      unfold bt_next bt_footer bt_size
      rw [hS5memE, maskSize_add_two _ hWmod]
      rw [show (mstate5 s n).heap_epilogue = s.heap_epilogue + mW s n from rfl]
      rw [if_pos (by omega)]
    have husedlast5 : bt_used (mstate5 s n) s.last = 0 := by
      unfold bt_used
      rw [hS5read s.last (by omega) (by omega) (by omega)]
      exact hfree
    have hsize5E : bt_size (mstate5 s n) s.heap_epilogue = mW s n := by
      unfold bt_size
      rw [hS5memE]
      exact maskSize_add_two _ hWmod
    have hsize5last : bt_size (mstate5 s n) s.last = mL s := by
      unfold bt_size
      rw [hS5read s.last (by omega) (by omega) (by omega)]
      rfl
    -- the delete of the old last block, handled through its frame
    have hm5seg : (mstate5 s n).segregated_list = s.segregated_list := rfl
    have hm5hs : (mstate5 s n).heap_start = s.heap_start := rfl
    have hidx5 : find_bucket (bt_size (mstate5 s n) s.last) = find_bucket (mL s) := by
      rw [hsize5last]
    have hq5 : s.mem (s.last + 1) < 0 → get_free_list_next (mstate5 s n) s.last = 0 := by
      intro hneg
      unfold get_free_list_next
      rw [hS5read (s.last + 1) (by omega) (by omega) (by omega)]
      rw [if_pos hneg]
    have hq5p : 0 ≤ s.mem (s.last + 1) → get_free_list_next (mstate5 s n) s.last =
        s.heap_start + s.mem (s.last + 1) := by
      intro hge
      unfold get_free_list_next
      rw [hS5read (s.last + 1) (by omega) (by omega) (by omega)]
      rw [if_neg (by omega)]
      rw [hm5hs]
    obtain ⟨t, ht⟩ : ∃ t, free_list_delete (mstate5 s n) s.last = t := ⟨_, rfl⟩
    have hfr := free_list_delete_frame (mstate5 s n) s.last
    rw [ht] at hfr
    obtain ⟨ht_hs0, ht_ep0, ht_brk0, -, ht_seg0⟩ := hfr
    have ht_hs : t.heap_start = s.heap_start := by rw [ht_hs0]; rfl
    have ht_ep : t.heap_epilogue = s.heap_epilogue + mW s n := by rw [ht_ep0]; rfl
    have ht_brk : t.brk = s.brk + mD s n := by rw [ht_brk0]; rfl
    -- the head of the target bucket after the delete
    have hh2 : t.segregated_list (find_bucket (mSZ n / 4)) = s.heap_start - 1 ∨
        (s.heap_start ≤ t.segregated_list (find_bucket (mSZ n / 4)) ∧
          t.segregated_list (find_bucket (mSZ n / 4)) - s.heap_start < 2 ^ 31 ∧
          (t.segregated_list (find_bucket (mSZ n / 4)) + 4 ≤ s.last ∨
            s.last + 4 ≤ t.segregated_list (find_bucket (mSZ n / 4)))) := by
      rcases ht_seg0 (find_bucket (mSZ n / 4)) with ⟨hU, hNE⟩ | hM | ⟨hqne, hV⟩
      · rw [hm5seg] at hU
        rcases hB2 with hbb | hok2
        · rw [hbb] at hU ⊢
          have hne2 : s.segregated_list (find_bucket (mL s)) ≠ s.last := by
            have h := hNE (hbb.trans hidx5.symm)
            rw [hm5seg] at h
            rw [hbb] at h
            exact h
          rcases hB1 with hb1 | hb1ok
          · exact absurd hb1 hne2
          · unfold head_ok at hb1ok
            rw [hU]
            exact hb1ok
        · unfold head_ok at hok2
          rw [hU]
          exact hok2
      · rw [hm5hs] at hM
        exact Or.inl hM
      · by_cases hsign : s.mem (s.last + 1) < 0
        · exact absurd (hq5 hsign) hqne
        · have hge : 0 ≤ s.mem (s.last + 1) := by omega
          rw [hq5p hge] at hV
          rcases hq with hneg | ⟨h0, hokq⟩
          · exact absurd hneg hsign
          · unfold head_ok at hokq
            rcases hokq with hmk | ⟨ha1, ha2, ha3⟩
            · exfalso
              omega
            · rw [hV]
              exact Or.inr ⟨by omega, ha2, ha3⟩
    have hK8 : 8 ≤ mSZ n / 4 := by omega
    rw [← ht_hs] at hh2
    obtain ⟨w, hw, hw_mem, hw_brk⟩ :=
      extend_place_tail t s.last (mSZ n / 4) hSZ4mod hK8
        (by rw [ht_hs]; exact hhs) (by omega)
        (by rw [ht_ep]; omega) hh2
    -- coalesce merges the old last block with the extension
    have e_coal : coalesce (mstate5 s n) s.heap_epilogue =
        (({ free_list_append (bt_make t s.last (mW s n + mL s) 0) s.last with
          last := s.last } : MM), s.last) := by
      unfold coalesce
      dsimp only
      rw [hbtprev5, hbtnext5]
      rw [if_pos (show s.last ≠ 0 by omega), husedlast5]
      rw [if_neg (show ¬(0 : Int) ≠ 0 by omega)]
      rw [hsize5E]
      rw [if_pos (show s.heap_epilogue = (mstate5 s n).last ∨
        ((0 : Int) = (mstate5 s n).last ∧ (1 : Int) = 0) from Or.inl rfl)]
      simp only [show ((1 : Int) = 0) = False from by simp,
        show ((0 : Int) = 0) = True from by simp,
        show ((1 : Int) ≠ 0) = True from by simp, if_false, if_true]
      rw [hsize5last, ht]
      simp only [FREE]
    rw [hWL] at e_coal
    refine ⟨w, ?_, ?_, ?_, ?_, ?_⟩
    · unfold malloc
      rw [if_neg (show ¬n = 0 by omega)]
      dsimp only
      simp only [WSIZE]
      rw [show find_fit s (round_up (4 + n) / 4) = 0 from hmiss]
      rw [if_neg (show ¬(0 : Int) ≠ 0 by omega)]
      rw [if_pos (⟨show s.last ≠ 0 by omega, hfree⟩ : s.last ≠ 0 ∧ bt_used s s.last = 0)]
      rw [show round_up (4 + n) - bt_size s s.last * 4 = mD s n from rfl]
      rw [e_extend, e_coal]
      dsimp only
      rw [show round_up (4 + n) / 4 = mSZ n / 4 from rfl]
      rw [hw]
    · rw [hw_brk, ht_brk]
      omega
    · unfold bt_size
      rw [hw_mem]
      rw [maskSize_add_one _ hSZ4mod]
      rw [hSZr]
    · unfold bt_used
      rw [hw_mem]
      exact maskUsed_add_one _ hSZ4mod
    · unfold bt_size
      rw [hw_mem, maskSize_add_one _ hSZ4mod]
      omega
  · intro hfail
    unfold malloc
    rw [if_neg (show ¬n = 0 by omega)]
    dsimp only
    simp only [WSIZE]
    rw [show find_fit s (round_up (4 + n) / 4) = 0 from hmiss]
    rw [if_neg (show ¬(0 : Int) ≠ 0 by omega)]
    rw [if_pos (⟨show s.last ≠ 0 by omega, hfree⟩ : s.last ≠ 0 ∧ bt_used s s.last = 0)]
    rw [show round_up (4 + n) - bt_size s s.last * 4 = mD s n from rfl]
    rw [show extend_heap s (mD s n) = none from by
      unfold extend_heap mem_sbrk
      rw [if_neg (show ¬(0 ≤ mD s n ∧ s.brk + mD s n ≤ s.limit) from by
        intro hand
        exact absurd hand.2 (by omega))]]

/-- Witness for C9 at `s9b` (`last = 1011` free, but the head of its bucket is
the other free block 1003) with `size = 100`: allocation succeeds at payload
1012 after extending and coalescing. -/
theorem malloc_miss_success_w :
    ∃ sF, malloc s9b 100 = (sF, s9b.last + 1) ∧
      sF.brk = s9b.brk + (round_up (4 + 100) - bt_size s9b s9b.last * 4) ∧
      bt_size sF s9b.last = round_up (4 + 100) / 4 ∧
      bt_used sF s9b.last = 1 ∧
      100 + 4 ≤ bt_size sF s9b.last * 4 :=
  (malloc_miss_success s9b 100 (by decide) (by decide) (by decide) (by decide)
    (by decide) (by decide) (by decide) (by decide) (by decide) (by decide)
    (by decide) (by decide) (by decide)).1 (by decide)

end Malloc
